import Mathlib

/-!
Verification of `blaze/sparksql.py`: the bidirectional translator between the
datashape type language and the SparkSQL schema language.

The embedding below mirrors the source file `src/blaze/sparksql.py`:

* `types` / `rev_types` — the two scalar lookup dictionaries (lines 13–32);
* `deoption` — the strip-optional normalizer (lines 34–50);
* `sparksql_to_ds` — the lift from SparkSQL types to datashapes (lines 53–83);
* `ds_to_sparksql` — the lowering from datashapes to SparkSQL types
  (lines 86–123);
* `into_schema` — the schema-preparation step of the `into` entry point
  (lines 126–139), with the engine plumbing (`discover`, `applySchema`,
  the RDD/`SQLContext` arguments) stripped, as those never touch the schema
  translation itself.

Shape values (the `datashape` library's `Mono` trees) are embedded as the
inductive `DS`; SparkSQL types as the inductive `SQL`.  Python exceptions
(`NotImplementedError`, and the `IndexError` that indexing an empty
`DataShape` would raise) become the `Except Err` monad, which by construction
models "an error propagates and no partial output is observable".

Facts about the `datashape` dependency that the embedding relies on
(documented here because only `sparksql.py` is in the repository):

* `DataShape(params)` requires a nonempty parameter list whose last entry is
  a measure and whose other entries are dimensions (`Fixed`/`Var`);
* constructors (`DataShape`, `Record`, `Option`, `Tuple`) launder their type
  arguments: a one-element `DataShape` wrapper is unwrapped on construction,
  so e.g. a `Record` field type is never a one-element `DataShape`;
* `Record` coerces field names with `str`, so integer column names supplied
  by `into` become their decimal strings;
* `datashape.real` is a registered alias for `datashape.float64` — the same
  `CType` object — so the `datashape.real` entry of the forward dict is the
  same key as the `datashape.float64` entry (both map to `DoubleType`; the
  dict has ten effective keys);
* type equality is structural on these trees.
-/

namespace Blaze

/-- The scalar kinds of the shape language that appear in this development:
the ten effective keys of the forward table (`datashape.real` is an alias
of `float64`, not a kind of its own — see `Blaze.real`) plus `int128`, a
representative unsupported scalar kind (the spec's "128-bit integer"
example). -/
inductive SKind where
  | int16 | int32 | int64
  | float32 | float64
  | time | date | datetime
  | bool | string
  | int128
deriving DecidableEq

/-- Shape-language values: the trees built by the `datashape` library.
`fixed`/`var` are the dimension markers, `scalar` the primitive measures,
`option` the `Option` wrapper, `record`/`tuple` the composite measures, and
`datashape` a `DataShape` node holding its parameter list (dimensions
followed by a measure). -/
inductive DS where
  | fixed (n : Nat)
  | var
  | scalar (k : SKind)
  | option (ty : DS)
  | record (fields : List (String × DS))
  | tuple (dshapes : List DS)
  | datashape (params : List DS)

/-- SparkSQL types: the primitive column types used by `sparksql.py`
(plus a few primitive kinds, and `mapType`, that exist in the engine but are
absent from `rev_types`), `arrayType` with its `containsNull` flag, and
`structType` whose fields are `(name, dataType, nullable)` triples. -/
inductive SQL where
  | shortType | integerType | longType
  | floatType | doubleType
  | stringType | timestampType | booleanType
  | byteType | binaryType | dateType | decimalType
  | arrayType (elementType : SQL) (containsNull : Bool)
  | mapType (keyType : SQL) (valueType : SQL) (valueContainsNull : Bool)
  | structType (fields : List (String × SQL × Bool))

/-- The Python exceptions the translator can raise: `NotImplementedError`
(both explicit `raise` sites) and the `IndexError` that `ds[0]` on an empty
`DataShape` would raise. -/
inductive Err where
  | notImplementedError
  | indexError
deriving DecidableEq

/-- `datashape.isdimension`: true exactly on the dimension markers. -/
def isdimension : DS → Bool
  | .fixed _ => true
  | .var => true
  | _ => false

/-- `isinstance(ds, datashape.Option)`. -/
def DS.isOption : DS → Bool
  | .option _ => true
  | _ => false

/-- `datashape.real`: a registered alias for `datashape.float64` — the very
same `CType` object, not a distinct kind. -/
def real : DS := .scalar .float64

/-- The forward scalar table `types` (sparksql.py lines 13–23), as the
lookup function of the Python dict: defined on its keys, `none` elsewhere.
The dict literal writes eleven entries, but since `datashape.real` is the
same object as `datashape.float64` the `real` entry (line 18) re-writes the
`float64` key with the same value `DoubleType()`, leaving ten effective
entries. -/
def types : DS → Option SQL
  | .scalar .int16 => some .shortType
  | .scalar .int32 => some .integerType
  | .scalar .int64 => some .longType
  | .scalar .float32 => some .floatType
  | .scalar .float64 => some .doubleType
  | .scalar .time => some .timestampType
  | .scalar .date => some .timestampType
  | .scalar .datetime => some .timestampType
  | .scalar .bool => some .booleanType
  | .scalar .string => some .stringType
  | _ => none

/-- The reverse scalar table `rev_types` (sparksql.py lines 25–32). -/
def rev_types : SQL → Option DS
  | .integerType => some (.scalar .int32)
  | .shortType => some (.scalar .int16)
  | .longType => some (.scalar .int64)
  | .floatType => some (.scalar .float32)
  | .doubleType => some (.scalar .float64)
  | .stringType => some (.scalar .string)
  | .timestampType => some (.scalar .datetime)
  | .booleanType => some (.scalar .bool)
  | _ => none

/-- `datashape.var * x` (`Var.__mul__`): prepend a `var` dimension,
flattening when the right operand is already a `DataShape`. -/
def varMul : DS → DS
  | .datashape ps => .datashape (.var :: ps)
  | d => .datashape [.var, d]

/-- `deoption` (sparksql.py lines 34–50): recurse through a `DataShape`
whose first parameter is not a dimension (the outer shape-descriptor case,
taking `ds[0]`), then strip one `Option` wrapper if present.

The Python function would raise `IndexError` on an empty `DataShape`
(`ds[0]`); that value is not constructible in the `datashape` library
(`DataShape` requires at least one parameter), and the embedding returns it
unchanged. -/
def deoption : DS → DS
  | .datashape (p :: ps) =>
      if isdimension p then .datashape (p :: ps) else deoption p
  | .option ty => ty
  | ds => ds
termination_by ds => sizeOf ds
decreasing_by simp; omega

theorem sizeOf_deoption_le (d : DS) : sizeOf (deoption d) ≤ sizeOf d := by
  induction d using deoption.induct with
  | case1 p ps hdim => simp [deoption, hdim]
  | case2 p ps hdim ih =>
      rw [deoption, if_neg hdim] at *
      simp at *
      omega
  | case3 ty => simp [deoption]
  | case4 ds h1 h2 => rw [deoption.eq_def]; split <;> simp_all

/-- The element extraction in the `ArrayType` branch of `ds_to_sparksql`
(lines 113–115): `elem = ds.subshape[0]` is the `DataShape` holding the
remaining parameters, unwrapped once more when it has exactly one
parameter. -/
def subelem : List DS → DS
  | [m] => m
  | ps => .datashape ps

theorem sizeOf_subelem_le (ps : List DS) : sizeOf (subelem ps) ≤ 1 + sizeOf ps := by
  match ps with
  | [m] => simp [subelem] <;> omega
  | [] => simp [subelem] <;> omega
  | p :: q :: ps => simp [subelem] <;> omega

theorem DS.sizeOf_pos (d : DS) : 0 < sizeOf d := by
  cases d <;> simp

mutual

/-- `ds_to_sparksql` (sparksql.py lines 86–123), together with the list
comprehension over record fields (lines 107–110) split out as `ds_fields`.
The string-parsing branch (line 105) is omitted: claims are stated over
already-parsed shape trees.  `Except` replaces exception propagation, and
the explicit `raise NotImplementedError()` (line 123) is
`Err.notImplementedError`; indexing the unconstructible empty `DataShape`
is `Err.indexError`. -/
def ds_to_sparksql : DS → Except Err SQL
  | .record fields =>
      match ds_fields fields with
      | .ok fs => .ok (.structType fs)
      | .error e => .error e
  | .datashape [] => .error .indexError
  | .datashape (p :: ps) =>
      if isdimension p then
        match ds_to_sparksql (deoption (subelem ps)) with
        | .ok e => .ok (.arrayType e (subelem ps).isOption)
        | .error er => .error er
      else
        ds_to_sparksql p
  | ds =>
      match types ds with
      | some t => .ok t
      | none => .error .notImplementedError
termination_by ds => sizeOf ds
decreasing_by
  all_goals
    first
      | (have h1 := sizeOf_deoption_le (subelem ps)
         have h2 := sizeOf_subelem_le ps
         have h3 := DS.sizeOf_pos p
         simp <;> omega)
      | (simp <;> omega)

def ds_fields : List (String × DS) → Except Err (List (String × SQL × Bool))
  | [] => .ok []
  | (name, typ) :: rest =>
      match ds_to_sparksql (deoption typ) with
      | .ok s =>
          match ds_fields rest with
          | .ok rs => .ok ((name, s, typ.isOption) :: rs)
          | .error e => .error e
      | .error e => .error e
termination_by fs => sizeOf fs
decreasing_by
  all_goals
    first
      | (have h1 := sizeOf_deoption_le typ
         simp <;> omega)
      | (simp <;> omega)

end

mutual

/-- `sparksql_to_ds` (sparksql.py lines 53–83), with the list comprehension
over struct fields (lines 79–82) split out as `sql_fields`.  The Python code
first tests `ss in rev_types`; since `ArrayType` and `StructType` values are
never keys of `rev_types`, the dictionary test is equivalent to the final
catch-all lookup below. -/
def sparksql_to_ds : SQL → Except Err DS
  | .arrayType elementType containsNull =>
      match sparksql_to_ds elementType with
      | .ok elem =>
          if containsNull then .ok (varMul (.option elem))
          else .ok (varMul elem)
      | .error e => .error e
  | .structType fields =>
      match sql_fields fields with
      | .ok fs => .ok (.record fs)
      | .error e => .error e
  | ss =>
      match rev_types ss with
      | some d => .ok d
      | none => .error .notImplementedError
termination_by ss => sizeOf ss
decreasing_by all_goals (simp <;> omega)

def sql_fields : List (String × SQL × Bool) → Except Err (List (String × DS))
  | [] => .ok []
  | (name, dataType, nullable) :: rest =>
      match sparksql_to_ds dataType with
      | .ok t =>
          match sql_fields rest with
          | .ok rs => .ok ((name, if nullable then .option t else t) :: rs)
          | .error e => .error e
      | .error e => .error e
termination_by fs => sizeOf fs
decreasing_by all_goals (simp <;> omega)

end

/-- Modelled from the spec: §4.2 `OptionalityNormalizer`,
`stripOptional(t) -> (inner, wasOptional)`.  Rule 1 recurses through a
one-element outer shape descriptor, rule 2 strips an `Option` wrapper and
reports `true`, rule 3 returns the type unchanged with `false`.  This is the
spec-side definition used to compare the spec's claimed nullable flag with
what `ds_to_sparksql` computes. -/
def stripOptional : DS → DS × Bool
  | .datashape [m] => stripOptional m
  | .option u => (u, true)
  | t => (t, false)
termination_by t => sizeOf t
decreasing_by simp <;> omega

/-- A value is "laundered" when it can sit where the `datashape` library has
applied `_launder`: a `Record` field type, an `Option` payload or a `Tuple`
component.  `_launder` unwraps a one-element `DataShape` and turns raw
integers/strings into types, so in those positions a one-element `DataShape`
(and a bare dimension marker) never occurs. -/
def launderedOK : DS → Bool
  | .datashape ps => ps.length != 1
  | .fixed _ => false
  | .var => false
  | _ => true

/-- Measures of the spec's `ShapeType` data model (§3): `Scalar`, `Optional`
and `Record` heads (`Tuple` is not part of the spec's closed variant). -/
def measureB : DS → Bool
  | .scalar _ => true
  | .option _ => true
  | .record _ => true
  | _ => false

mutual

/-- Well-formed, library-constructible values of the spec's `ShapeType`
data model: scalars, `Option` wrappers with laundered payloads, records
with laundered field types, and `DataShape` nodes whose parameters are
dimensions followed by one measure.  Bare dimension markers and `Tuple`
nodes are not `ShapeType` values. -/
def wf : DS → Bool
  | .scalar _ => true
  | .option t => launderedOK t && wf t
  | .record fields => wfFields fields
  | .datashape ps => wfParams ps
  | _ => false
termination_by ds => sizeOf ds
decreasing_by all_goals (simp <;> omega)

def wfFields : List (String × DS) → Bool
  | [] => true
  | (_, t) :: rest => launderedOK t && wf t && wfFields rest
termination_by fs => sizeOf fs
decreasing_by all_goals (simp <;> omega)

def wfParams : List DS → Bool
  | [] => false
  | [m] => measureB m && wf m
  | p :: ps => isdimension p && wfParams ps
termination_by ps => sizeOf ps
decreasing_by all_goals (simp <;> omega)

end

mutual

/-- The spec's no-double-wrapping invariant (§3): throughout the tree, an
`Option` node's payload is never itself an `Option` node. -/
def noDoubleOpt : DS → Bool
  | .option t => !t.isOption && noDoubleOpt t
  | .record fields => noDoubleOptFields fields
  | .tuple ts => noDoubleOptList ts
  | .datashape ps => noDoubleOptList ps
  | _ => true
termination_by ds => sizeOf ds
decreasing_by all_goals (simp <;> omega)

def noDoubleOptFields : List (String × DS) → Bool
  | [] => true
  | (_, t) :: rest => noDoubleOpt t && noDoubleOptFields rest
termination_by fs => sizeOf fs
decreasing_by all_goals (simp <;> omega)

def noDoubleOptList : List DS → Bool
  | [] => true
  | t :: rest => noDoubleOpt t && noDoubleOptList rest
termination_by ts => sizeOf ts
decreasing_by all_goals (simp <;> omega)

end

mutual

/-- The tree contains a scalar kind outside the forward table `types`
(e.g. `int128`). -/
def containsUnsupported : DS → Bool
  | .scalar k => (types (.scalar k)).isNone
  | .option t => containsUnsupported t
  | .record fields => cuFields fields
  | .tuple ts => cuList ts
  | .datashape ps => cuList ps
  | _ => false
termination_by ds => sizeOf ds
decreasing_by all_goals (simp <;> omega)

def cuFields : List (String × DS) → Bool
  | [] => false
  | (_, t) :: rest => containsUnsupported t || cuFields rest
termination_by fs => sizeOf fs
decreasing_by all_goals (simp <;> omega)

def cuList : List DS → Bool
  | [] => false
  | t :: rest => containsUnsupported t || cuList rest
termination_by ts => sizeOf ts
decreasing_by all_goals (simp <;> omega)

end

/-- The schema-preparation step of `into` (sparksql.py lines 126–139): when
the supplied (or discovered) schema's first parameter is a `Tuple`, the
tuple's components are zipped with the column names — defaulting, as
`columns or list(range(len(...)))` does, to the positional indices when no
list (or an empty list, which is falsy) is supplied — and the schema is
replaced by `dshape(Record(...))`.  `Record` coerces each name with `str`,
so the default integer indices become `"0"`, `"1"`, …; supplied string
names pass through unchanged.  The surrounding engine plumbing
(`discover(rdd).subshape[0]`, `applySchema`) is outside the translator and
is not modelled. -/
def into_schema (schema : DS) (columns : Option (List String)) : DS :=
  match schema with
  | .datashape (.tuple ts :: _) =>
      let cols :=
        match columns with
        | none => (List.range ts.length).map (fun i => toString i)
        | some [] => (List.range ts.length).map (fun i => toString i)
        | some cs => cs
      .datashape [.record (cols.zip ts)]
  | _ => schema

/-- The field-type domain of claim C1: a scalar or a struct (record),
possibly wrapped in one `Option` — no arrays. -/
def scalarOrStruct : DS → Bool
  | .scalar _ => true
  | .record _ => true
  | _ => false

/-- A field type that is a scalar or struct, `Option`-wrapped or not. -/
def fieldOK : DS → Bool
  | .option u => scalarOrStruct u
  | t => scalarOrStruct t

/-- The head of a spec `ShapeType` value that is not `Optional`: a `Scalar`,
a `Record`, or a `Dimension` (a `DataShape` headed by a dimension marker). -/
def headSDR : DS → Bool
  | .scalar _ => true
  | .record _ => true
  | .datashape (p :: _) => isdimension p
  | _ => false

/-! ### Helper lemmas -/

theorem varMul_isOption (d : DS) : (varMul d).isOption = false := by
  cases d <;> simp [varMul, DS.isOption]

theorem varMul_var_head (d : DS) : ∃ ps, varMul d = .datashape (.var :: ps) := by
  cases d <;> exact ⟨_, rfl⟩

/-- Whatever `sparksql_to_ds` returns successfully is never an `Option`
node: scalars come from `rev_types` (whose values are scalars), arrays
become `DataShape`s via `varMul`, structs become `Record`s. -/
theorem lift_isOption_false (ss : SQL) (d : DS) (h : sparksql_to_ds ss = .ok d) :
    d.isOption = false := by
  cases ss with
  | arrayType et cn =>
      rw [sparksql_to_ds] at h
      cases hrec : sparksql_to_ds et with
      | ok e =>
          rw [hrec] at h
          cases cn <;> simp at h <;> subst h <;> exact varMul_isOption _
      | error e => rw [hrec] at h; simp at h
  | structType fields =>
      rw [sparksql_to_ds] at h
      cases hrec : sql_fields fields with
      | ok fs => rw [hrec] at h; simp at h; subst h; simp [DS.isOption]
      | error e => rw [hrec] at h; simp at h
  | _ =>
      simp only [sparksql_to_ds, rev_types] at h
      first
        | (simp at h; subst h; simp [DS.isOption])
        | (simp at h)

/-! ### Claim theorems -/

/-- C3: the reverse scalar table is the inverse image of the forward table
wherever both are defined — for every engine scalar kind in the domain of
`rev_types`, applying `types` to the shape kind `rev_types` assigns to it
gives back the engine kind, so every engine scalar kind that round-trips
does so to the same shape kind. -/
theorem c3_rev_types_inverse (ss : SQL) (d : DS) (h : rev_types ss = some d) :
    types d = some ss := by
  cases ss <;> simp [rev_types] at h <;> subst h <;> rfl

theorem c3_witness : types (DS.scalar SKind.int32) = some SQL.integerType :=
  c3_rev_types_inverse SQL.integerType (DS.scalar SKind.int32) rfl

/-- C8 counterexample: the claimed "second lossy many-to-one collapse" at
`real` does not exist — `real` is the same type as `float64` (a registered
alias, the same `CType` object), so the `real` entry duplicates the
`float64` key and the round trip returns `Scalar real` itself, unchanged:
nothing is collapsed. -/
theorem c8_counterexample :
    Blaze.real = DS.scalar SKind.float64 ∧
    (ds_to_sparksql Blaze.real).bind sparksql_to_ds = .ok Blaze.real := by
  refine ⟨rfl, ?_⟩
  simp [Blaze.real, ds_to_sparksql, sparksql_to_ds, types, rev_types,
    Except.bind]

/-- C8 (amended): the forward table's `real` entry does map to `DoubleType`,
the same engine kind as `float64` — but only because `real` *is* `float64`
(datashape's registered alias), so the entry is a redundant duplicate of
the `float64` key, the round trip sends `Scalar real` to itself, and there
is no second lossy collapse beyond the time/date one. -/
theorem c8_real_alias :
    Blaze.real = DS.scalar SKind.float64 ∧
    types Blaze.real = some .doubleType ∧
    types (.scalar .float64) = some .doubleType ∧
    (ds_to_sparksql Blaze.real).bind sparksql_to_ds = .ok Blaze.real := by
  refine ⟨rfl, rfl, rfl, ?_⟩
  simp [Blaze.real, ds_to_sparksql, sparksql_to_ds, types, rev_types,
    Except.bind]

/-- C4: for every scalar kind `k` in the forward table, the round trip
`sparksql_to_ds (ds_to_sparksql (Scalar k))` equals
`Scalar (rev_types (types k))`, and this equals the original `Scalar k`
exactly for the kinds outside the intentionally collapsed time/date family
(`real`, being the same kind as `float64`, round-trips to itself). -/
theorem c4_scalar_roundtrip (k : SKind) (st : SQL)
    (h : types (.scalar k) = some st) :
    ∃ dk : SKind, rev_types st = some (.scalar dk) ∧
      (ds_to_sparksql (.scalar k)).bind sparksql_to_ds = .ok (.scalar dk) ∧
      (dk = k ↔ (k ≠ .time ∧ k ≠ .date)) := by
  cases k <;> simp [types] at h <;> subst h <;>
    exact ⟨_, rfl,
      by simp [ds_to_sparksql, sparksql_to_ds, types, rev_types, Except.bind],
      by decide⟩

theorem c4_witness :
    ∃ dk : SKind, rev_types SQL.integerType = some (.scalar dk) ∧
      (ds_to_sparksql (.scalar .int32)).bind sparksql_to_ds = .ok (.scalar dk) ∧
      (dk = SKind.int32 ↔ (SKind.int32 ≠ .time ∧ SKind.int32 ≠ .date)) :=
  c4_scalar_roundtrip SKind.int32 SQL.integerType rfl

/-- C10: lifting fails with the code's `NotImplementedError` for every
schema node that is neither a scalar kind in `rev_types`, an `ArrayType`,
nor a `StructType` (e.g. a map column); the `Except` result is an error, so
no part of a shape type is returned. -/
theorem c10_lift_unknown_errors (ss : SQL)
    (h1 : rev_types ss = none)
    (h2 : ∀ et cn, ss ≠ .arrayType et cn)
    (h3 : ∀ fs, ss ≠ .structType fs) :
    sparksql_to_ds ss = .error .notImplementedError := by
  cases ss <;>
    solve
      | (exact absurd rfl (h2 _ _))
      | (exact absurd rfl (h3 _))
      | (simp [sparksql_to_ds, rev_types])
      | (simp [rev_types] at h1)

theorem c10_witness :
    sparksql_to_ds (.mapType .stringType .integerType true)
      = .error .notImplementedError :=
  c10_lift_unknown_errors (.mapType .stringType .integerType true) rfl
    (fun _ _ h => SQL.noConfusion h) (fun _ h => SQL.noConfusion h)

/-- C7: when the schema handed to `into` has an anonymous `Tuple` at its
head and no column-naming list is supplied, the resulting record's field
names are the zero-based positional indices as strings, `"0"`, `"1"`, …,
in positional order, zipped with the tuple's component types. -/
theorem c7_anonymous_tuple_naming (ts rest : List DS) :
    ∃ fields, into_schema (.datashape (.tuple ts :: rest)) none
        = .datashape [.record fields] ∧
      fields.map Prod.fst = (List.range ts.length).map (fun i => toString i) ∧
      fields.map Prod.snd = ts := by
  refine ⟨((List.range ts.length).map (fun i => toString i)).zip ts, rfl, ?_, ?_⟩
  · exact List.map_fst_zip _ _ (by simp)
  · exact List.map_snd_zip _ _ (by simp)

theorem c7_witness :
    ∃ fields,
      into_schema (.datashape [.tuple [.scalar .int32, .scalar .string]]) none
        = .datashape [.record fields] ∧
      fields.map Prod.fst
        = (List.range 2).map (fun i => toString i) ∧
      fields.map Prod.snd = [DS.scalar .int32, DS.scalar .string] :=
  c7_anonymous_tuple_naming [DS.scalar .int32, DS.scalar .string] []

/-- C5: the array round trip discards fixed length —
`lift (lower (5 * int32))` is `var * int32`, not `5 * int32` — and, in
general, lifting an `ArrayType` always yields a variable-length dimension
(a `DataShape` headed by `var`) whose element is `Option`-wrapped exactly
when `containsNull` is set, never a fixed-size dimension. -/
theorem c5_array_roundtrip :
    ((ds_to_sparksql (.datashape [.fixed 5, .scalar .int32])).bind sparksql_to_ds
      = .ok (.datashape [.var, .scalar .int32])) ∧
    (DS.datashape [.var, .scalar .int32]
      ≠ DS.datashape [.fixed 5, .scalar .int32]) ∧
    (∀ et cn r, sparksql_to_ds (.arrayType et cn) = .ok r →
      ∃ e ps, sparksql_to_ds et = .ok e ∧ e.isOption = false ∧
        r = varMul (if cn then .option e else e) ∧
        r = .datashape (.var :: ps)) := by
  refine ⟨?_, by simp, ?_⟩
  · simp [ds_to_sparksql, sparksql_to_ds, types, rev_types, Except.bind,
      isdimension, subelem, deoption, DS.isOption, varMul]
  · intro et cn r h
    rw [sparksql_to_ds] at h
    cases hrec : sparksql_to_ds et with
    | ok e =>
        rw [hrec] at h
        have hne := lift_isOption_false et e hrec
        cases cn <;> simp at h <;> subst h <;>
          exact ⟨e, _, rfl, hne, rfl, (varMul_var_head _).choose_spec⟩
    | error e => rw [hrec] at h; simp at h

theorem c5_witness :
    ∃ e ps, sparksql_to_ds .integerType = .ok e ∧ e.isOption = false ∧
      DS.datashape [.var, .option (.scalar .int32)]
        = varMul (if true then .option e else e) ∧
      DS.datashape [.var, .option (.scalar .int32)]
        = .datashape (.var :: ps) :=
  c5_array_roundtrip.2.2 .integerType true _
    (by simp [sparksql_to_ds, rev_types, varMul])

theorem forall₂_names_eq {P : (String × DS) → (String × DS) → Prop}
    {l l' : List (String × DS)}
    (hP : ∀ f f', P f f' → f'.1 = f.1) (h : List.Forall₂ P l l') :
    l'.map Prod.fst = l.map Prod.fst := by
  induction h with
  | nil => rfl
  | cons hr _ ih => simp [ih, hP _ _ hr]

/-- Lowering a field list and lifting the result preserves each field's
name and `Option`-wrapping: the lowered triple carries
`nullable = isinstance(typ, Option)` and the lift re-wraps in `Option`
exactly when that flag is set. -/
theorem fields_roundtrip :
    ∀ (fields : List (String × DS)) (fs : List (String × SQL × Bool))
      (fields' : List (String × DS)),
    ds_fields fields = .ok fs → sql_fields fs = .ok fields' →
    List.Forall₂ (fun f f' => f'.1 = f.1 ∧ f'.2.isOption = f.2.isOption)
      fields fields' := by
  intro fields
  induction fields with
  | nil =>
      intro fs fields' h1 h2
      simp only [ds_fields] at h1
      cases h1
      simp only [sql_fields] at h2
      cases h2
      exact .nil
  | cons f rest ih =>
      intro fs fields' h1 h2
      obtain ⟨name, typ⟩ := f
      simp only [ds_fields] at h1
      cases ha : ds_to_sparksql (deoption typ) with
      | ok s =>
          rw [ha] at h1
          cases hb : ds_fields rest with
          | ok rs =>
              rw [hb] at h1
              simp at h1
              subst h1
              simp only [sql_fields] at h2
              cases hc : sparksql_to_ds s with
              | ok t =>
                  rw [hc] at h2
                  cases hd : sql_fields rs with
                  | ok rs' =>
                      rw [hd] at h2
                      simp at h2
                      subst h2
                      refine .cons ⟨rfl, ?_⟩ (ih rs rs' hb hd)
                      cases ho : typ.isOption
                      · simpa using lift_isOption_false s t hc
                      · simp [DS.isOption]
                  | error e => rw [hd] at h2; simp at h2
              | error e => rw [hc] at h2; simp at h2
          | error e => rw [hb] at h1; simp at h1
      | error e => rw [ha] at h1; simp at h1

/-- C1: for every `Record` with unique field names whose field types are
scalars or structs (no arrays), possibly `Option`-wrapped, lifting the
result of lowering it yields a `Record` with the same field names, in the
same order, each field `Option`-wrapped exactly when the original field
type was `Option`-wrapped. -/
theorem c1_record_roundtrip (fields : List (String × DS)) (s : SQL) (r : DS)
    (hnodup : (fields.map Prod.fst).Nodup)
    (hfield : ∀ f ∈ fields, fieldOK f.2 = true)
    (hlower : ds_to_sparksql (.record fields) = .ok s)
    (hlift : sparksql_to_ds s = .ok r) :
    ∃ fields', r = .record fields' ∧
      fields'.map Prod.fst = fields.map Prod.fst ∧
      List.Forall₂ (fun f f' => f'.1 = f.1 ∧ f'.2.isOption = f.2.isOption)
        fields fields' := by
  rw [ds_to_sparksql] at hlower
  cases ha : ds_fields fields with
  | ok fs =>
      rw [ha] at hlower
      simp at hlower
      subst hlower
      rw [sparksql_to_ds] at hlift
      cases hb : sql_fields fs with
      | ok fields' =>
          rw [hb] at hlift
          simp at hlift
          subst hlift
          have hrel := fields_roundtrip fields fs fields' ha hb
          exact ⟨fields', rfl, forall₂_names_eq (fun _ _ hp => hp.1) hrel, hrel⟩
      | error e => rw [hb] at hlift; simp at hlift
  | error e => rw [ha] at hlower; simp at hlower

theorem c1_witness :
    ∃ fields',
      DS.record [("name", .scalar .string), ("amount", .option (.scalar .int32))]
        = .record fields' ∧
      fields'.map Prod.fst
        = ([("name", DS.scalar .string),
            ("amount", DS.option (.scalar .int32))].map Prod.fst) ∧
      List.Forall₂ (fun f f' => f'.1 = f.1 ∧ f'.2.isOption = f.2.isOption)
        [("name", DS.scalar .string), ("amount", DS.option (.scalar .int32))]
        fields' :=
  c1_record_roundtrip
    [("name", .scalar .string), ("amount", .option (.scalar .int32))]
    (.structType [("name", .stringType, false), ("amount", .integerType, true)])
    (.record [("name", .scalar .string), ("amount", .option (.scalar .int32))])
    (by decide) (by decide)
    (by simp [ds_to_sparksql, ds_fields, deoption, DS.isOption, types])
    (by simp [sparksql_to_ds, sql_fields, rev_types])

/-- Under launderedness — which every `Record` field type satisfies, since
the `datashape` `Record` constructor launders its field types — the code's
direct `isinstance(typ, Option)` test agrees with the spec's
`stripOptional` flag. -/
theorem isOption_eq_stripOptional (t : DS) (h : launderedOK t = true) :
    t.isOption = (stripOptional t).2 := by
  cases t <;> solve
    | (simp [launderedOK] at h)
    | (simp [DS.isOption, stripOptional])
    | (rename_i ps
       cases ps with
       | nil => simp [DS.isOption, stripOptional]
       | cons p ps' =>
           cases ps' with
           | nil => simp [launderedOK] at h
           | cons q ps'' => simp [DS.isOption, stripOptional])

theorem c2_fields :
    ∀ (fields : List (String × DS)) (fs : List (String × SQL × Bool)),
    (∀ f ∈ fields, launderedOK f.2 = true) → ds_fields fields = .ok fs →
    List.Forall₂ (fun (f : String × DS) (e : String × SQL × Bool) =>
      e.1 = f.1 ∧ ds_to_sparksql (deoption f.2) = .ok e.2.1 ∧
      e.2.2 = (stripOptional f.2).2) fields fs := by
  intro fields
  induction fields with
  | nil =>
      intro fs _ h
      simp only [ds_fields] at h
      cases h
      exact .nil
  | cons f rest ih =>
      intro fs hl h
      obtain ⟨name, typ⟩ := f
      simp only [ds_fields] at h
      cases ha : ds_to_sparksql (deoption typ) with
      | ok s =>
          rw [ha] at h
          cases hb : ds_fields rest with
          | ok rs =>
              rw [hb] at h
              simp at h
              subst h
              refine .cons ⟨rfl, ha, ?_⟩
                (ih rs (fun f hf => hl f (List.mem_cons_of_mem _ hf)) hb)
              exact isOption_eq_stripOptional typ (hl _ (List.mem_cons_self _ _))
          | error e => rw [hb] at h; simp at h
      | error e => rw [ha] at h; simp at h

/-- C2: lowering a `Record` yields a `StructType` with one entry per field,
in order; each entry keeps the field's name, its schema type is the
lowering of `deoption` applied to the field type, and its nullable flag is
the `wasOptional` answer of the spec's `stripOptional` normalization.  The
hypothesis `launderedOK` holds of every field type the `datashape` `Record`
constructor can store (it launders one-element `DataShape` wrappers away),
and under it the code's direct `isinstance(typ, Option)` flag coincides
with the spec's detect-after-unwrapping flag
(`isOption_eq_stripOptional`). -/
theorem c2_record_lower (fields : List (String × DS)) (s : SQL)
    (hl : ∀ f ∈ fields, launderedOK f.2 = true)
    (hlower : ds_to_sparksql (.record fields) = .ok s) :
    ∃ fs, s = .structType fs ∧
      List.Forall₂ (fun (f : String × DS) (e : String × SQL × Bool) =>
        e.1 = f.1 ∧ ds_to_sparksql (deoption f.2) = .ok e.2.1 ∧
        e.2.2 = (stripOptional f.2).2) fields fs := by
  rw [ds_to_sparksql] at hlower
  cases ha : ds_fields fields with
  | ok fs =>
      rw [ha] at hlower
      simp at hlower
      subst hlower
      exact ⟨fs, rfl, c2_fields fields fs hl ha⟩
  | error e => rw [ha] at hlower; simp at hlower

theorem c2_witness :
    ∃ fs,
      SQL.structType [("name", .stringType, false), ("amount", .integerType, true)]
        = .structType fs ∧
      List.Forall₂ (fun (f : String × DS) (e : String × SQL × Bool) =>
        e.1 = f.1 ∧ ds_to_sparksql (deoption f.2) = .ok e.2.1 ∧
        e.2.2 = (stripOptional f.2).2)
        [("name", DS.scalar .string), ("amount", DS.option (.scalar .int32))]
        fs :=
  c2_record_lower
    [("name", .scalar .string), ("amount", .option (.scalar .int32))]
    (.structType [("name", .stringType, false), ("amount", .integerType, true)])
    (by decide)
    (by simp [ds_to_sparksql, ds_fields, deoption, DS.isOption, types])

/-- C9: for every constructible shape value satisfying the
no-double-`Optional` invariant, `deoption` never returns an `Option` node —
it strips at most one `Option` wrapper after recursing through one-element
shape descriptors — and the value it returns has a `Scalar`, `Dimension`,
or `Record` at its head. -/
theorem c9_deoption_not_option :
    ∀ ds : DS, wf ds = true → noDoubleOpt ds = true →
      (deoption ds).isOption = false ∧ headSDR (deoption ds) = true := by
  intro ds
  induction ds using deoption.induct with
  | case1 p ps hdim =>
      intro _ _
      simp [deoption, hdim, DS.isOption, headSDR]
  | case2 p ps hdim ih =>
      intro h1 h2
      simp only [wf] at h1
      cases ps with
      | nil =>
          simp only [wfParams] at h1
          simp only [noDoubleOpt, noDoubleOptList] at h2
          simp only [Bool.and_eq_true] at h1 h2
          simp only [deoption, hdim, if_false, Bool.false_eq_true]
          exact ih h1.2 h2.1
      | cons q qs =>
          simp only [wfParams, Bool.and_eq_true] at h1
          exact absurd h1.1 (by simp [hdim])
  | case3 ty =>
      intro h1 h2
      simp only [wf, Bool.and_eq_true] at h1
      simp only [noDoubleOpt, Bool.and_eq_true] at h2
      have hno : ty.isOption = false := by
        cases hopt : ty.isOption
        · rfl
        · rw [hopt] at h2; simp at h2
      refine ⟨by simpa [deoption] using hno, ?_⟩
      simp only [deoption]
      cases ty with
      | scalar k => simp [headSDR]
      | record fs => simp [headSDR]
      | option u => simp [DS.isOption] at hno
      | tuple ts => simp [wf] at h1
      | fixed n => simp [launderedOK] at h1
      | var => simp [launderedOK] at h1
      | datashape ps =>
          obtain ⟨hl, hw⟩ := h1
          simp only [launderedOK] at hl
          cases ps with
          | nil => simp [wf, wfParams] at hw
          | cons p ps' =>
              cases ps' with
              | nil => simp at hl
              | cons q qs =>
                  simp only [wf, wfParams, Bool.and_eq_true] at hw
                  simp [headSDR, hw.1]
  | case4 ds hne1 hne2 =>
      intro h1 h2
      cases ds with
      | scalar k => simp [deoption, DS.isOption, headSDR]
      | record fs => simp [deoption, DS.isOption, headSDR]
      | fixed n => simp [wf] at h1
      | var => simp [wf] at h1
      | tuple ts => simp [wf] at h1
      | option ty => exact (hne2 _ rfl).elim
      | datashape ps =>
          cases ps with
          | nil => simp [wf, wfParams] at h1
          | cons p ps' => exact (hne1 _ _ rfl).elim

theorem c9_witness :
    (deoption (.datashape [.option (.scalar .int32)])).isOption = false ∧
    headSDR (deoption (.datashape [.option (.scalar .int32)])) = true :=
  c9_deoption_not_option (.datashape [.option (.scalar .int32)])
    (by simp [wf, wfParams, wfFields, measureB, launderedOK])
    (by simp [noDoubleOpt, noDoubleOptList, DS.isOption])

/-- `deoption` preserves constructibility and the presence of unsupported
scalar kinds. -/
theorem deoption_wf_cu :
    ∀ t : DS, wf t = true →
      wf (deoption t) = true ∧
      containsUnsupported (deoption t) = containsUnsupported t := by
  intro t
  induction t using deoption.induct with
  | case1 p ps hdim =>
      intro h1
      simp [deoption, hdim, h1]
  | case2 p ps hdim ih =>
      intro h1
      simp only [wf] at h1
      cases ps with
      | nil =>
          simp only [wfParams, Bool.and_eq_true] at h1
          simp only [deoption, hdim, if_false, Bool.false_eq_true]
          have hrec := ih h1.2
          refine ⟨hrec.1, ?_⟩
          rw [hrec.2]
          simp [containsUnsupported, cuList]
      | cons q qs =>
          simp only [wfParams, Bool.and_eq_true] at h1
          exact absurd h1.1 (by simp [hdim])
  | case3 ty =>
      intro h1
      simp only [wf, Bool.and_eq_true] at h1
      simp [deoption, h1.2, containsUnsupported]
  | case4 ds hne1 hne2 =>
      intro h1
      have hd : deoption ds = ds := by
        rw [deoption.eq_def]
        split
        · exact (hne1 _ _ rfl).elim
        · exact (hne2 _ rfl).elim
        · rfl
      rw [hd]
      exact ⟨h1, rfl⟩

theorem measureB_not_dim (m : DS) (h : measureB m = true) :
    isdimension m = false := by
  cases m <;> simp [measureB] at h <;> simp [isdimension]

theorem wf_subelem (ps : List DS) (h : wfParams ps = true) :
    wf (subelem ps) = true ∧
    containsUnsupported (subelem ps) = cuList ps := by
  cases ps with
  | nil => simp [wfParams] at h
  | cons p ps' =>
      cases ps' with
      | nil =>
          simp only [wfParams, Bool.and_eq_true] at h
          simp [subelem, h.2, containsUnsupported, cuList]
      | cons q qs =>
          exact ⟨by simpa [wf, subelem] using h,
            by simp [subelem, containsUnsupported]⟩

theorem c6_aux : ∀ n : Nat,
    (∀ ds : DS, sizeOf ds ≤ n → wf ds = true →
      containsUnsupported ds = true → ∃ e, ds_to_sparksql ds = .error e) ∧
    (∀ fields : List (String × DS), sizeOf fields ≤ n →
      wfFields fields = true → cuFields fields = true →
      ∃ e, ds_fields fields = .error e) := by
  intro n
  induction n with
  | zero =>
      constructor
      · intro ds hsz _ _
        exact absurd hsz (by have := DS.sizeOf_pos ds; omega)
      · intro fields hsz _ _
        exfalso
        cases fields <;> simp at hsz
  | succ n ih =>
      obtain ⟨ihA, ihB⟩ := ih
      constructor
      · intro ds hsz h1 h2
        cases ds with
        | fixed m => simp [wf] at h1
        | var => simp [wf] at h1
        | tuple ts => simp [wf] at h1
        | scalar k =>
            refine ⟨.notImplementedError, ?_⟩
            simp only [containsUnsupported, Option.isNone_iff_eq_none] at h2
            simp [ds_to_sparksql, h2]
        | option t =>
            exact ⟨.notImplementedError, by simp [ds_to_sparksql, types]⟩
        | record fields =>
            simp only [wf] at h1
            simp only [containsUnsupported] at h2
            have e1 : sizeOf (DS.record fields) = 1 + sizeOf fields := by simp
            have hsz' : sizeOf fields ≤ n := by omega
            obtain ⟨e, he⟩ := ihB fields hsz' h1 h2
            exact ⟨e, by simp [ds_to_sparksql, he]⟩
        | datashape ps =>
            simp only [wf] at h1
            simp only [containsUnsupported] at h2
            cases ps with
            | nil => simp [wfParams] at h1
            | cons p ps' =>
                by_cases hdim : isdimension p = true
                · have hcup : containsUnsupported p = false := by
                    cases p <;> simp [isdimension] at hdim <;>
                      simp [containsUnsupported]
                  cases ps' with
                  | nil =>
                      simp only [wfParams, Bool.and_eq_true] at h1
                      have := measureB_not_dim p h1.1
                      rw [hdim] at this
                      exact absurd this (by simp)
                  | cons q qs =>
                      simp only [wfParams, Bool.and_eq_true] at h1
                      have hsub := wf_subelem (q :: qs) h1.2
                      have hdeo := deoption_wf_cu (subelem (q :: qs)) hsub.1
                      have hcu2 : cuList (q :: qs) = true := by
                        simp only [cuList, hcup, Bool.false_or] at h2
                        rw [cuList]
                        exact h2
                      have hcu3 :
                          containsUnsupported (deoption (subelem (q :: qs)))
                            = true := by
                        rw [hdeo.2, hsub.2]; exact hcu2
                      have d1 := sizeOf_deoption_le (subelem (q :: qs))
                      have d2 := sizeOf_subelem_le (q :: qs)
                      have d3 := DS.sizeOf_pos p
                      have e1 : sizeOf (DS.datashape (p :: q :: qs))
                          = 2 + sizeOf p + sizeOf (q :: qs) := by
                        simp <;> omega
                      have hszd :
                          sizeOf (deoption (subelem (q :: qs))) ≤ n := by omega
                      obtain ⟨e, he⟩ := ihA _ hszd hdeo.1 hcu3
                      exact ⟨e, by simp [ds_to_sparksql, hdim, he]⟩
                · cases ps' with
                  | nil =>
                      simp only [wfParams, Bool.and_eq_true] at h1
                      have hcup : containsUnsupported p = true := by
                        simpa [cuList] using h2
                      have e1 : sizeOf (DS.datashape [p])
                          = 2 + sizeOf p + 1 := by simp <;> omega
                      have hszp : sizeOf p ≤ n := by omega
                      obtain ⟨e, he⟩ := ihA p hszp h1.2 hcup
                      exact ⟨e, by simp [ds_to_sparksql, hdim, he]⟩
                  | cons q qs =>
                      simp only [wfParams, Bool.and_eq_true] at h1
                      exact absurd h1.1 hdim
      · intro fields hsz hwf hcu
        cases fields with
        | nil => simp [cuFields] at hcu
        | cons f rest =>
            obtain ⟨name, typ⟩ := f
            simp only [wfFields, Bool.and_eq_true] at hwf
            obtain ⟨⟨hl, hw⟩, hr⟩ := hwf
            simp only [cuFields] at hcu
            have e1 : sizeOf ((name, typ) :: rest)
                = 1 + (1 + sizeOf name + sizeOf typ) + sizeOf rest := by
              simp <;> omega
            by_cases hct : containsUnsupported typ = true
            · have hdeo := deoption_wf_cu typ hw
              have hcu2 : containsUnsupported (deoption typ) = true := by
                rw [hdeo.2]; exact hct
              have d1 := sizeOf_deoption_le typ
              have hszt : sizeOf (deoption typ) ≤ n := by omega
              obtain ⟨e, he⟩ := ihA _ hszt hdeo.1 hcu2
              exact ⟨e, by simp [ds_fields, he]⟩
            · have hct' : containsUnsupported typ = false := by
                simpa using hct
              rw [hct'] at hcu
              simp only [Bool.false_or] at hcu
              have hszr : sizeOf rest ≤ n := by omega
              obtain ⟨e, he⟩ := ihB rest hszr hr hcu
              cases hmt : ds_to_sparksql (deoption typ) with
              | error e2 => exact ⟨e2, by simp [ds_fields, hmt]⟩
              | ok s => exact ⟨e, by simp [ds_fields, hmt, he]⟩

/-- On constructible inputs the lowering never raises `IndexError`: every
`DataShape` node a well-formed value contains is nonempty, so the only
error `ds_to_sparksql` can produce there is `NotImplementedError`. -/
theorem no_index_aux : ∀ n : Nat,
    (∀ ds : DS, sizeOf ds ≤ n → wf ds = true →
      ds_to_sparksql ds ≠ .error .indexError) ∧
    (∀ fields : List (String × DS), sizeOf fields ≤ n →
      wfFields fields = true → ds_fields fields ≠ .error .indexError) := by
  intro n
  induction n with
  | zero =>
      constructor
      · intro ds hsz _
        exact absurd hsz (by have := DS.sizeOf_pos ds; omega)
      · intro fields hsz _
        exfalso
        cases fields <;> simp at hsz
  | succ n ih =>
      obtain ⟨ihA, ihB⟩ := ih
      constructor
      · intro ds hsz h1
        cases ds with
        | fixed m => simp [wf] at h1
        | var => simp [wf] at h1
        | tuple ts => simp [wf] at h1
        | scalar k =>
            cases ht : types (.scalar k) <;> simp [ds_to_sparksql, ht]
        | option t => simp [ds_to_sparksql, types]
        | record fields =>
            simp only [wf] at h1
            have e1 : sizeOf (DS.record fields) = 1 + sizeOf fields := by simp
            have hsz' : sizeOf fields ≤ n := by omega
            have hrec := ihB fields hsz' h1
            cases hf : ds_fields fields with
            | ok fs => simp [ds_to_sparksql, hf]
            | error e =>
                cases e with
                | notImplementedError => simp [ds_to_sparksql, hf]
                | indexError => exact absurd hf hrec
        | datashape ps =>
            simp only [wf] at h1
            cases ps with
            | nil => simp [wfParams] at h1
            | cons p ps' =>
                by_cases hdim : isdimension p = true
                · cases ps' with
                  | nil =>
                      simp only [wfParams, Bool.and_eq_true] at h1
                      have := measureB_not_dim p h1.1
                      rw [hdim] at this
                      exact absurd this (by simp)
                  | cons q qs =>
                      simp only [wfParams, Bool.and_eq_true] at h1
                      have hsub := wf_subelem (q :: qs) h1.2
                      have hdeo := deoption_wf_cu (subelem (q :: qs)) hsub.1
                      have d1 := sizeOf_deoption_le (subelem (q :: qs))
                      have d2 := sizeOf_subelem_le (q :: qs)
                      have d3 := DS.sizeOf_pos p
                      have e1 : sizeOf (DS.datashape (p :: q :: qs))
                          = 2 + sizeOf p + sizeOf (q :: qs) := by
                        simp <;> omega
                      have hszd :
                          sizeOf (deoption (subelem (q :: qs))) ≤ n := by omega
                      have hrec := ihA _ hszd hdeo.1
                      cases hm : ds_to_sparksql (deoption (subelem (q :: qs))) with
                      | ok e => simp [ds_to_sparksql, hdim, hm]
                      | error e =>
                          cases e with
                          | notImplementedError =>
                              simp [ds_to_sparksql, hdim, hm]
                          | indexError => exact absurd hm hrec
                · cases ps' with
                  | nil =>
                      simp only [wfParams, Bool.and_eq_true] at h1
                      have e1 : sizeOf (DS.datashape [p])
                          = 2 + sizeOf p + 1 := by simp <;> omega
                      have hszp : sizeOf p ≤ n := by omega
                      have heq : ds_to_sparksql (DS.datashape [p])
                          = ds_to_sparksql p := by
                        simp [ds_to_sparksql, hdim]
                      rw [heq]
                      exact ihA p hszp h1.2
                  | cons q qs =>
                      simp only [wfParams, Bool.and_eq_true] at h1
                      exact absurd h1.1 hdim
      · intro fields hsz hwf
        cases fields with
        | nil => simp [ds_fields]
        | cons f rest =>
            obtain ⟨name, typ⟩ := f
            simp only [wfFields, Bool.and_eq_true] at hwf
            obtain ⟨⟨hl, hw⟩, hr⟩ := hwf
            have e1 : sizeOf ((name, typ) :: rest)
                = 1 + (1 + sizeOf name + sizeOf typ) + sizeOf rest := by
              simp <;> omega
            have hdeo := deoption_wf_cu typ hw
            have d1 := sizeOf_deoption_le typ
            have hszt : sizeOf (deoption typ) ≤ n := by omega
            have hszr : sizeOf rest ≤ n := by omega
            have hrecT := ihA _ hszt hdeo.1
            have hrecR := ihB rest hszr hr
            cases hmt : ds_to_sparksql (deoption typ) with
            | error e =>
                cases e with
                | notImplementedError => simp [ds_fields, hmt]
                | indexError => exact absurd hmt hrecT
            | ok s =>
                cases hmr : ds_fields rest with
                | error e =>
                    cases e with
                    | notImplementedError => simp [ds_fields, hmt, hmr]
                    | indexError => exact absurd hmr hrecR
                | ok rs => simp [ds_fields, hmt, hmr]

/-- C6: lowering any constructible shape value that contains a scalar kind
absent from the forward table (e.g. a 128-bit integer) fails with the
code's `NotImplementedError` — the error the spec's taxonomy names
`UnsupportedScalarKind` — and, the result being `Except.error`, no partial
`SchemaType` is produced or observable. -/
theorem c6_unsupported_scalar_errors (ds : DS)
    (h1 : wf ds = true) (h2 : containsUnsupported ds = true) :
    ds_to_sparksql ds = .error .notImplementedError := by
  obtain ⟨e, he⟩ := (c6_aux (sizeOf ds)).1 ds le_rfl h1 h2
  cases e with
  | notImplementedError => exact he
  | indexError => exact absurd he ((no_index_aux (sizeOf ds)).1 ds le_rfl h1)

theorem c6_witness :
    ds_to_sparksql (.record [("a", .scalar .int128), ("b", .scalar .int32)])
      = .error .notImplementedError :=
  c6_unsupported_scalar_errors
    (.record [("a", .scalar .int128), ("b", .scalar .int32)])
    (by simp [wf, wfFields, launderedOK])
    (by simp [containsUnsupported, cuFields, types])

end Blaze
